import Mathlib

/-!
# Verification of the `omni.kit.imageseq` layout engine

Shallow embedding of `src/exts/omni.kit.imageseq/omni/kit/imageseq/core.py`,
function `calculate_transforms` (the spec's `computeLayout`), together with
the parameter record from `config.py`.

Modelling conventions:
* Python `float` arithmetic (including `math.sin`, `math.cos`, `math.tau`,
  `math.degrees`) is modelled over `ℝ`.
* Python `int` fields (`config.ppi`, `config.images_per_row`) are modelled
  as `ℤ`; image pixel dimensions (PIL `Image.size`) as `ℕ`.
* `Image.open` over `config.expanded_glob` is I/O; the engine is modelled as
  receiving the already-opened list of images (identity plus pixel
  dimensions), exactly the input the spec gives to the layout engine.
* Python raises `ZeroDivisionError` on division by zero; every division in
  `calculate_transforms` is by `config.ppi` (reached only when the image
  list is non-empty) or guarded by `total_width_cm > 0`, so the embedding
  returns `Except PyError _` with an explicit `ppi = 0` test at the point
  of the first division.
* The Python `dict` built by `transforms[image.filename] = transform` is
  modelled as an association list with insert-or-replace semantics
  (`dictInsert` / `pyDict`).
-/

/-- A `Gf.Vec3d` value. -/
structure Vec3 where
  x : ℝ
  y : ℝ
  z : ℝ

/-- `class Transform` from `core.py` (all three fields are assigned in the
loop before the record is stored). -/
structure Transform where
  translate : Vec3
  scale : Vec3
  rotate : Vec3

/-- A PIL image as consumed by `calculate_transforms`: `image.size[0]`,
`image.size[1]` and the identity key `image.filename`. -/
structure PILImage where
  width : ℕ
  height : ℕ
  filename : String
deriving DecidableEq

/-- The numeric layout fields of `class Config` from `config.py`
(`path_glob`/`expanded_glob` only feed the modelled-away `Image.open`). -/
structure Config where
  ppi : ℤ
  gap_pct : ℝ
  curve_pct : ℝ
  images_per_row : ℤ

/-- The only exception `calculate_transforms` itself can raise: Python's
`ZeroDivisionError` from `x / config.ppi` when `config.ppi == 0`. -/
inductive PyError where
  | zeroDivisionError
deriving DecidableEq

/-- `INCHES_TO_CM = 1.54` — the constant exactly as written in `core.py`
(line 69). -/
def INCHES_TO_CM : ℝ := 1.54

/-- `math.tau = 2π`. -/
noncomputable def tau : ℝ := 2 * Real.pi

/-- `math.degrees(r) = r * 180 / π`. -/
noncomputable def degreesOf (r : ℝ) : ℝ := r * 180 / Real.pi

/-- `max_image_width_px = max([image.size[0] for image in images])`
(Python `max` of a non-empty list of naturals; `foldr max 0` agrees on
non-empty lists). -/
def maxImageWidthPx (images : List PILImage) : ℕ :=
  (images.map PILImage.width).foldr max 0

/-- `max_image_height_px = max([image.size[1] for image in images])`. -/
def maxImageHeightPx (images : List PILImage) : ℕ :=
  (images.map PILImage.height).foldr max 0

/-- `max_image_width_cm = (max_image_width_px / config.ppi) * INCHES_TO_CM`. -/
noncomputable def maxImageWidthCm (images : List PILImage) (config : Config) : ℝ :=
  ((maxImageWidthPx images : ℝ) / (config.ppi : ℝ)) * INCHES_TO_CM

/-- `max_image_height_cm = (max_image_height_px / config.ppi) * INCHES_TO_CM`. -/
noncomputable def maxImageHeightCm (images : List PILImage) (config : Config) : ℝ :=
  ((maxImageHeightPx images : ℝ) / (config.ppi : ℝ)) * INCHES_TO_CM

/-- `images_per_row = image_count if config.images_per_row < 1 else
config.images_per_row`. -/
def imagesPerRow (images : List PILImage) (config : Config) : ℤ :=
  if config.images_per_row < 1 then (images.length : ℤ) else config.images_per_row

/-- `imagesPerRow` as a natural number (it is non-negative whenever the
image list is non-empty). -/
def imagesPerRowN (images : List PILImage) (config : Config) : ℕ :=
  (imagesPerRow images config).toNat

/-- `total_rows = math.ceil(image_count / images_per_row)`. -/
noncomputable def totalRows (images : List PILImage) (config : Config) : ℤ :=
  ⌈(images.length : ℝ) / ((imagesPerRow images config : ℤ) : ℝ)⌉

/-- `image_gap_cm = config.gap_pct * max_image_width_cm`. -/
noncomputable def imageGapCm (images : List PILImage) (config : Config) : ℝ :=
  config.gap_pct * maxImageWidthCm images config

/-- `total_width_cm = max(max_image_width_cm * (images_per_row - 1) +
image_gap_cm * max(images_per_row - 1, 0), 0)`. -/
noncomputable def totalWidthCm (images : List PILImage) (config : Config) : ℝ :=
  max (maxImageWidthCm images config * ((imagesPerRow images config : ℤ) - 1 : ℤ) +
    imageGapCm images config * ((max (imagesPerRow images config - 1) 0 : ℤ) : ℝ)) 0

/-- `total_height_cm = (total_rows - 1) * max_image_height_cm +
image_gap_cm * max(total_rows - 1, 0)`. -/
noncomputable def totalHeightCm (images : List PILImage) (config : Config) : ℝ :=
  ((totalRows images config - 1 : ℤ) : ℝ) * maxImageHeightCm images config +
    imageGapCm images config * ((max (totalRows images config - 1) 0 : ℤ) : ℝ)

/-- `left_most_cm = -0.5 * total_width_cm`. -/
noncomputable def leftMostCm (images : List PILImage) (config : Config) : ℝ :=
  -0.5 * totalWidthCm images config

/-- `top_most_cm = 0.5 * total_height_cm`. -/
noncomputable def topMostCm (images : List PILImage) (config : Config) : ℝ :=
  0.5 * totalHeightCm images config

/-- `t = (left_current_cm - left_most_cm) / total_width_cm if
total_width_cm > 0 else 0` (line 121 of `core.py`): the guarded per-image
row-position parameter. -/
noncomputable def rowT (images : List PILImage) (config : Config) (left : ℝ) : ℝ :=
  if totalWidthCm images config > 0 then
    (left - leftMostCm images config) / totalWidthCm images config
  else 0

/-- The body of the placement loop for one image, given the cursor values
`left = left_current_cm` and `top = top_current_cm` in force when the
image's transform is computed (lines 111-133 of `core.py`). -/
noncomputable def imageTransform (images : List PILImage) (config : Config)
    (left top : ℝ) (img : PILImage) : Transform :=
  let image_width_cm : ℝ := ((img.width : ℝ) / (config.ppi : ℝ)) * INCHES_TO_CM
  let image_height_cm : ℝ := ((img.height : ℝ) / (config.ppi : ℝ)) * INCHES_TO_CM
  let t : ℝ := rowT images config left
  let turns : ℝ := 0.5 * tau
  let phase : ℝ := (1 - t) * turns + 0.25 * tau
  let amp : ℝ := 0.5 * totalWidthCm images config
  let x : ℝ := left * (1 - config.curve_pct) + config.curve_pct * amp * Real.sin phase
  let z : ℝ := 0 + config.curve_pct * amp * Real.cos phase
  let angle : ℝ := -config.curve_pct * degreesOf (-phase + 0.5 * tau)
  { translate := ⟨x, top, z⟩
    scale := ⟨image_width_cm, image_height_cm, 1⟩
    rotate := ⟨0, angle, 0⟩ }

/-- The `for count, image in enumerate(images)` loop of
`calculate_transforms`, with the running state `(left_current_cm,
top_current_cm, seen)` made explicit; it emits the `(image.filename,
transform)` pairs in iteration order. -/
noncomputable def layoutLoop (images : List PILImage) (config : Config) :
    List PILImage → ℝ → ℝ → ℤ → List (String × Transform)
  | [], _, _, _ => []
  | img :: rest, left, top, seen =>
    if seen > imagesPerRow images config - 1 then
      let leftR := leftMostCm images config
      let topR := top - (maxImageHeightCm images config + imageGapCm images config)
      (img.filename, imageTransform images config leftR topR img) ::
        layoutLoop images config rest
          (leftR + (maxImageWidthCm images config + imageGapCm images config)) topR 1
    else
      (img.filename, imageTransform images config left top img) ::
        layoutLoop images config rest
          (left + (maxImageWidthCm images config + imageGapCm images config)) top (seen + 1)

/-- The ordered list of `(filename, transform)` pairs produced by the loop
from its initial state `left_current_cm = left_most_cm`,
`top_current_cm = top_most_cm`, `seen = 0`. -/
noncomputable def layoutPairs (images : List PILImage) (config : Config) :
    List (String × Transform) :=
  layoutLoop images config images (leftMostCm images config) (topMostCm images config) 0

/-- Python `d[k] = v`: replace the value in place if the key is present,
otherwise append the new binding. -/
def dictInsert (d : List (String × Transform)) (k : String) (v : Transform) :
    List (String × Transform) :=
  if (d.map Prod.fst).contains k then
    d.map (fun p => if p.1 = k then (k, v) else p)
  else d ++ [(k, v)]

/-- The Python dict built by performing `transforms[image.filename] =
transform` for each emitted pair in order. -/
def pyDict (ps : List (String × Transform)) : List (String × Transform) :=
  ps.foldl (fun d p => dictInsert d p.1 p.2) []

/-- `calculate_transforms(config)` from `core.py` (the spec's
`computeLayout`), on the already-opened image list. Mirrors the source:
the empty-input early return precedes every division, and the first
division by `config.ppi` raises `ZeroDivisionError` when `config.ppi == 0`;
no other exception is possible. -/
noncomputable def calculate_transforms (images : List PILImage) (config : Config) :
    Except PyError (List (String × Transform)) :=
  if images.length = 0 then .ok []
  else if config.ppi = 0 then .error .zeroDivisionError
  else .ok (pyDict (layoutPairs images config))

/-- The cursor value `left_current_cm` in force when the image at
(0-based) input index `i` is placed (closed form of the loop state). -/
noncomputable def leftAt (images : List PILImage) (config : Config) (i : ℕ) : ℝ :=
  leftMostCm images config +
    ((i % imagesPerRowN images config : ℕ) : ℝ) *
      (maxImageWidthCm images config + imageGapCm images config)

/-- The cursor value `top_current_cm` in force when the image at
(0-based) input index `i` is placed (closed form of the loop state). -/
noncomputable def topAt (images : List PILImage) (config : Config) (i : ℕ) : ℝ :=
  topMostCm images config -
    ((i / imagesPerRowN images config : ℕ) : ℝ) *
      (maxImageHeightCm images config + imageGapCm images config)

/-- The `phase` value computed for the image at input index `i`. -/
noncomputable def phaseAt (images : List PILImage) (config : Config) (i : ℕ) : ℝ :=
  (1 - rowT images config (leftAt images config i)) * (0.5 * tau) + 0.25 * tau

/-- Modelled from the spec: the yaw formula asserted by the spec,
`angle_degrees = -curveFraction * toDegrees(fullCircle - phase)` with
`fullCircle = 2π`. -/
noncomputable def specYaw (curve phase : ℝ) : ℝ :=
  -curve * degreesOf (2 * Real.pi - phase)

/-- The yaw formula the source actually computes, written with the spec's
vocabulary: `-curveFraction * toDegrees(halfCircle - phase)` where
`halfCircle = 0.5 * fullCircle = π`. -/
noncomputable def amendedYaw (curve phase : ℝ) : ℝ :=
  -curve * degreesOf (0.5 * (2 * Real.pi) - phase)

/-! ## Helper lemmas about the loop and the dict -/

theorem layoutLoop_length (images : List PILImage) (config : Config) :
    ∀ (rest : List PILImage) (left top : ℝ) (seen : ℤ),
      (layoutLoop images config rest left top seen).length = rest.length := by
  intro rest
  induction rest with
  | nil => intro left top seen; simp [layoutLoop]
  | cons img rest ih =>
    intro left top seen
    rw [layoutLoop]
    split <;> simp [ih]

theorem layoutLoop_map_fst (images : List PILImage) (config : Config) :
    ∀ (rest : List PILImage) (left top : ℝ) (seen : ℤ),
      (layoutLoop images config rest left top seen).map Prod.fst =
        rest.map PILImage.filename := by
  intro rest
  induction rest with
  | nil => intro left top seen; simp [layoutLoop]
  | cons img rest ih =>
    intro left top seen
    rw [layoutLoop]
    split <;> simp [ih]

theorem snd_mem_layoutLoop (images : List PILImage) (config : Config) :
    ∀ (rest : List PILImage) (left top : ℝ) (seen : ℤ) (p : String × Transform),
      p ∈ layoutLoop images config rest left top seen →
        ∃ l t g, p.2 = imageTransform images config l t g := by
  intro rest
  induction rest with
  | nil => intro left top seen p hp; simp [layoutLoop] at hp
  | cons img rest ih =>
    intro left top seen p hp
    rw [layoutLoop] at hp
    split at hp <;> rcases List.mem_cons.mp hp with h | h
    · exact ⟨_, _, _, congrArg Prod.snd h⟩
    · exact ih _ _ _ _ h
    · exact ⟨_, _, _, congrArg Prod.snd h⟩
    · exact ih _ _ _ _ h

theorem mem_dictInsert (d : List (String × Transform)) (k : String) (v : Transform)
    (q : String × Transform) (hq : q ∈ dictInsert d k v) : q ∈ d ∨ q = (k, v) := by
  unfold dictInsert at hq
  split at hq
  · rcases List.mem_map.mp hq with ⟨p, hp, hpq⟩
    by_cases hk : p.1 = k
    · right; rw [if_pos hk] at hpq; exact hpq.symm
    · left; rw [if_neg hk] at hpq; exact hpq ▸ hp
  · rcases List.mem_append.mp hq with h | h
    · exact Or.inl h
    · right; simpa using h

theorem mem_foldl_dictInsert (ps : List (String × Transform)) :
    ∀ (d : List (String × Transform)) (q : String × Transform),
      q ∈ ps.foldl (fun d p => dictInsert d p.1 p.2) d → q ∈ d ∨ q ∈ ps := by
  induction ps with
  | nil => intro d q hq; exact Or.inl hq
  | cons p ps ih =>
    intro d q hq
    rcases ih _ _ hq with h | h
    · rcases mem_dictInsert _ _ _ _ h with h' | h'
      · exact Or.inl h'
      · right; rw [h']; exact List.mem_cons_self _ _
    · right; exact List.mem_cons_of_mem _ h

theorem mem_pyDict (ps : List (String × Transform)) (q : String × Transform)
    (hq : q ∈ pyDict ps) : q ∈ ps := by
  rcases mem_foldl_dictInsert ps [] q hq with h | h
  · simp at h
  · exact h

theorem foldl_dictInsert_of_nodup (ps : List (String × Transform)) :
    ∀ (d : List (String × Transform)),
      ((d ++ ps).map Prod.fst).Nodup →
        ps.foldl (fun d p => dictInsert d p.1 p.2) d = d ++ ps := by
  induction ps with
  | nil => intro d _; simp
  | cons p ps ih =>
    intro d hnd
    have hkey : ¬ (d.map Prod.fst).contains p.1 := by
      intro hc
      have hmem : p.1 ∈ d.map Prod.fst := by simpa using hc
      rw [List.map_append] at hnd
      have hdisj := (List.nodup_append.mp hnd).2.2
      exact hdisj hmem (by simp)
    have hstep : dictInsert d p.1 p.2 = d ++ [p] := by
      unfold dictInsert
      rw [if_neg hkey]
    show (p :: ps).foldl (fun d p => dictInsert d p.1 p.2) d = d ++ p :: ps
    rw [List.foldl_cons, hstep, ih (d ++ [p]) (by simpa using hnd)]
    simp

theorem pyDict_eq_of_nodup (ps : List (String × Transform))
    (hnd : (ps.map Prod.fst).Nodup) : pyDict ps = ps := by
  have := foldl_dictInsert_of_nodup ps [] (by simpa using hnd)
  simpa [pyDict] using this

/-! ## Closed form of the loop state -/

theorem succ_mod_div_of_eq (i N : ℕ) (hN : 0 < N) (h : i % N = N - 1) :
    (i + 1) % N = 0 ∧ (i + 1) / N = i / N + 1 := by
  have h1 : N * (i / N) + i % N = i := Nat.div_add_mod i N
  have h2 : i % N < N := Nat.mod_lt _ hN
  have h4 : N * (i / N + 1) = N * (i / N) + N := by ring
  have h3 : i + 1 = N * (i / N + 1) := by omega
  rw [h3]
  exact ⟨Nat.mul_mod_right N _, Nat.mul_div_cancel_left _ hN⟩

theorem succ_mod_div_of_lt (i N : ℕ) (hN : 0 < N) (h : i % N + 1 < N) :
    (i + 1) % N = i % N + 1 ∧ (i + 1) / N = i / N := by
  have h1 : N * (i / N) + i % N = i := Nat.div_add_mod i N
  have h3 : i + 1 = N * (i / N) + (i % N + 1) := by omega
  rw [h3]
  constructor
  · rw [Nat.mul_add_mod]
    exact Nat.mod_eq_of_lt h
  · rw [Nat.mul_add_div hN, Nat.div_eq_of_lt h, Nat.add_zero]

theorem one_le_imagesPerRow (images : List PILImage) (config : Config)
    (hne : images ≠ []) : 1 ≤ imagesPerRow images config := by
  unfold imagesPerRow
  have : 0 < images.length := List.length_pos.mpr hne
  split <;> omega

theorem imagesPerRowN_cast (images : List PILImage) (config : Config)
    (h : 1 ≤ imagesPerRow images config) :
    ((imagesPerRowN images config : ℕ) : ℤ) = imagesPerRow images config := by
  unfold imagesPerRowN
  omega

theorem imagesPerRowN_pos (images : List PILImage) (config : Config)
    (h : 1 ≤ imagesPerRow images config) : 0 < imagesPerRowN images config := by
  unfold imagesPerRowN
  omega

theorem layoutLoop_step (images : List PILImage) (config : Config)
    (hipr : 1 ≤ imagesPerRow images config) (img : PILImage) (rest : List PILImage)
    (j : ℕ) :
    layoutLoop images config (img :: rest)
        (leftAt images config j + (maxImageWidthCm images config + imageGapCm images config))
        (topAt images config j)
        (((j % imagesPerRowN images config + 1 : ℕ) : ℤ)) =
      (img.filename, imageTransform images config (leftAt images config (j + 1))
          (topAt images config (j + 1)) img) ::
        layoutLoop images config rest
          (leftAt images config (j + 1) +
            (maxImageWidthCm images config + imageGapCm images config))
          (topAt images config (j + 1))
          ((((j + 1) % imagesPerRowN images config + 1 : ℕ) : ℤ)) := by
  have hN0 : 0 < imagesPerRowN images config := imagesPerRowN_pos images config hipr
  have hNZ : ((imagesPerRowN images config : ℕ) : ℤ) = imagesPerRow images config :=
    imagesPerRowN_cast images config hipr
  have hr : j % imagesPerRowN images config < imagesPerRowN images config :=
    Nat.mod_lt _ hN0
  by_cases hc : j % imagesPerRowN images config = imagesPerRowN images config - 1
  · -- the row is full: the loop resets the cursors before placing `img`
    obtain ⟨hm, hd⟩ := succ_mod_div_of_eq j _ hN0 hc
    have hcond : ((j % imagesPerRowN images config + 1 : ℕ) : ℤ) >
        imagesPerRow images config - 1 := by
      rw [← hNZ]; omega
    have lA : leftAt images config (j + 1) = leftMostCm images config := by
      rw [leftAt, hm]; push_cast; ring
    have tA : topAt images config (j + 1) =
        topAt images config j -
          (maxImageHeightCm images config + imageGapCm images config) := by
      rw [topAt, topAt, hd]; push_cast; ring
    have sE : (((j + 1) % imagesPerRowN images config + 1 : ℕ) : ℤ) = 1 := by
      rw [hm]; norm_num
    rw [layoutLoop, if_pos hcond, lA, tA, sE]
  · -- room remains in the current row: no reset
    obtain ⟨hm, hd⟩ := succ_mod_div_of_lt j _ hN0 (by omega)
    have hcond : ¬ (((j % imagesPerRowN images config + 1 : ℕ) : ℤ) >
        imagesPerRow images config - 1) := by
      rw [← hNZ]; omega
    have lA : leftAt images config (j + 1) =
        leftAt images config j +
          (maxImageWidthCm images config + imageGapCm images config) := by
      rw [leftAt, leftAt, hm]; push_cast; ring
    have tA : topAt images config (j + 1) = topAt images config j := by
      rw [topAt, topAt, hd]
    have sE : (((j + 1) % imagesPerRowN images config + 1 : ℕ) : ℤ) =
        ((j % imagesPerRowN images config + 1 : ℕ) : ℤ) + 1 := by
      rw [hm]; push_cast; ring
    rw [layoutLoop, if_neg hcond, lA, tA, sE]

theorem layoutLoop_aux_getElem (images : List PILImage) (config : Config)
    (hipr : 1 ≤ imagesPerRow images config) :
    ∀ (rest : List PILImage) (j k : ℕ),
      (layoutLoop images config rest
          (leftAt images config j +
            (maxImageWidthCm images config + imageGapCm images config))
          (topAt images config j)
          (((j % imagesPerRowN images config + 1 : ℕ) : ℤ)))[k]? =
        (rest[k]?).map (fun g =>
          (g.filename, imageTransform images config (leftAt images config (j + 1 + k))
            (topAt images config (j + 1 + k)) g)) := by
  intro rest
  induction rest with
  | nil => intro j k; simp [layoutLoop]
  | cons img rest ih =>
    intro j k
    rw [layoutLoop_step images config hipr img rest j]
    rcases k with _ | k
    · simp
    · simp only [List.getElem?_cons_succ]
      have harith : j + 1 + 1 + k = j + 1 + (k + 1) := by omega
      rw [ih (j + 1) k, harith]

theorem layoutPairs_getElem (images : List PILImage) (config : Config)
    (hne : images ≠ []) (k : ℕ) :
    (layoutPairs images config)[k]? =
      (images[k]?).map (fun g =>
        (g.filename, imageTransform images config (leftAt images config k)
          (topAt images config k) g)) := by
  have hipr : 1 ≤ imagesPerRow images config := one_le_imagesPerRow images config hne
  have hN0 : 0 < imagesPerRowN images config := imagesPerRowN_pos images config hipr
  obtain ⟨img, rest, rfl⟩ : ∃ img rest, images = img :: rest := by
    cases images with
    | nil => exact absurd rfl hne
    | cons a l => exact ⟨a, l, rfl⟩
  have hcond : ¬ ((0 : ℤ) > imagesPerRow (img :: rest) config - 1) := by omega
  have lA : leftAt (img :: rest) config 0 = leftMostCm (img :: rest) config := by
    rw [leftAt]; simp
  have tA : topAt (img :: rest) config 0 = topMostCm (img :: rest) config := by
    rw [topAt]; simp
  have sE : (((0 % imagesPerRowN (img :: rest) config + 1 : ℕ) : ℤ)) = 0 + 1 := by
    simp
  have hstep : layoutPairs (img :: rest) config =
      (img.filename, imageTransform (img :: rest) config (leftAt (img :: rest) config 0)
          (topAt (img :: rest) config 0) img) ::
        layoutLoop (img :: rest) config rest
          (leftAt (img :: rest) config 0 +
            (maxImageWidthCm (img :: rest) config + imageGapCm (img :: rest) config))
          (topAt (img :: rest) config 0)
          (((0 % imagesPerRowN (img :: rest) config + 1 : ℕ) : ℤ)) := by
    rw [layoutPairs, layoutLoop, if_neg hcond, lA, tA, sE]
  rw [hstep]
  rcases k with _ | k
  · simp
  · simp only [List.getElem?_cons_succ]
    have hget := layoutLoop_aux_getElem (img :: rest) config hipr rest 0 k
    rw [hget]
    have harith : 0 + 1 + k = k + 1 := by omega
    rw [harith]

/-! ## From `calculate_transforms` to the emitted pairs -/

theorem layoutPairs_map_fst (images : List PILImage) (config : Config) :
    (layoutPairs images config).map Prod.fst = images.map PILImage.filename :=
  layoutLoop_map_fst images config images _ _ _

theorem layoutPairs_length (images : List PILImage) (config : Config) :
    (layoutPairs images config).length = images.length :=
  layoutLoop_length images config images _ _ _

theorem calculate_transforms_result_cases (images : List PILImage) (config : Config)
    (res : List (String × Transform))
    (hok : calculate_transforms images config = .ok res) :
    res = [] ∨ res = pyDict (layoutPairs images config) := by
  unfold calculate_transforms at hok
  split_ifs at hok
  · exact Or.inl (Except.ok.inj hok).symm
  · exact Or.inr (Except.ok.inj hok).symm

theorem calculate_transforms_res_eq (images : List PILImage) (config : Config)
    (res : List (String × Transform))
    (hnd : (images.map PILImage.filename).Nodup)
    (hok : calculate_transforms images config = .ok res) :
    res = layoutPairs images config := by
  unfold calculate_transforms at hok
  split_ifs at hok with h1 h2
  · have hemp : images = [] := List.length_eq_zero.mp h1
    subst hemp
    have : res = [] := (Except.ok.inj hok).symm
    rw [this, layoutPairs, layoutLoop]
  · have : res = pyDict (layoutPairs images config) := (Except.ok.inj hok).symm
    rw [this, pyDict_eq_of_nodup]
    rw [layoutPairs_map_fst]
    exact hnd

theorem calculate_transforms_ok (images : List PILImage) (config : Config)
    (hne : images ≠ []) (hppi : config.ppi ≠ 0) :
    calculate_transforms images config =
      .ok (pyDict (layoutPairs images config)) := by
  unfold calculate_transforms
  rw [if_neg (by simpa using hne), if_neg hppi]

/-- `imageTransform` written out with its `let` bindings substituted. -/
theorem imageTransform_def (images : List PILImage) (config : Config)
    (l t : ℝ) (g : PILImage) :
    imageTransform images config l t g =
      { translate := ⟨l * (1 - config.curve_pct) +
            config.curve_pct * (0.5 * totalWidthCm images config) *
              Real.sin ((1 - rowT images config l) * (0.5 * tau) + 0.25 * tau), t,
            0 + config.curve_pct * (0.5 * totalWidthCm images config) *
              Real.cos ((1 - rowT images config l) * (0.5 * tau) + 0.25 * tau)⟩
        scale := ⟨((g.width : ℝ) / (config.ppi : ℝ)) * INCHES_TO_CM,
            ((g.height : ℝ) / (config.ppi : ℝ)) * INCHES_TO_CM, 1⟩
        rotate := ⟨0, -config.curve_pct *
            degreesOf (-((1 - rowT images config l) * (0.5 * tau) + 0.25 * tau) +
              0.5 * tau), 0⟩ } := rfl

theorem calculate_transforms_ok_nodup (images : List PILImage) (config : Config)
    (hne : images ≠ []) (hppi : config.ppi ≠ 0)
    (hnd : (images.map PILImage.filename).Nodup) :
    calculate_transforms images config = .ok (layoutPairs images config) := by
  rw [calculate_transforms_ok images config hne hppi,
    pyDict_eq_of_nodup _ (by rw [layoutPairs_map_fst]; exact hnd)]

/-! ## The claims -/

/-- C9: for every parameter struct (including an invalid `pixelsPerInch`),
`computeLayout` applied to an empty image list returns an empty mapping and
never raises an error — the `image_count == 0` early return precedes every
division. -/
theorem claim_C9_empty_input (config : Config) :
    calculate_transforms [] config = .ok [] := by
  unfold calculate_transforms
  simp

/-- C5: with `curveFraction = 0`, for every input image list and all other
parameter values, every transform produced by `computeLayout` has `z`
translation exactly `0` and `y` rotation exactly `0`. -/
theorem claim_C5_curve_zero_flat (images : List PILImage) (config : Config)
    (res : List (String × Transform)) (hcurve : config.curve_pct = 0)
    (hok : calculate_transforms images config = .ok res) :
    ∀ p ∈ res, p.2.translate.z = 0 ∧ p.2.rotate.y = 0 := by
  intro p hp
  rcases calculate_transforms_result_cases images config res hok with rfl | rfl
  · simp at hp
  · obtain ⟨l, t, g, hpt⟩ :=
      snd_mem_layoutLoop images config images _ _ _ p (mem_pyDict _ _ hp)
    rw [hpt, imageTransform_def]
    simp [hcurve]

/-- Witness for C5 at a concrete input. -/
theorem claim_C5_witness :
    (⟨300, 0.1, 0, 1⟩ : Config).curve_pct = 0 ∧
    calculate_transforms [⟨300, 300, "a"⟩] ⟨300, 0.1, 0, 1⟩ =
      .ok (pyDict (layoutPairs [⟨300, 300, "a"⟩] ⟨300, 0.1, 0, 1⟩)) ∧
    ∀ p ∈ pyDict (layoutPairs [⟨300, 300, "a"⟩] ⟨300, 0.1, 0, 1⟩),
      p.2.translate.z = 0 ∧ p.2.rotate.y = 0 :=
  ⟨rfl, calculate_transforms_ok _ _ (by simp) (by norm_num),
    claim_C5_curve_zero_flat _ _ _ rfl
      (calculate_transforms_ok _ _ (by simp) (by norm_num))⟩

/-- C6: with `curveFraction = 1` and `totalWidthCm > 0`, every image's
translation satisfies `x² + z² = (0.5 * totalWidthCm)²` — the images lie on
a circle of radius `0.5 * totalWidthCm`. -/
theorem claim_C6_circle (images : List PILImage) (config : Config)
    (res : List (String × Transform)) (hcurve : config.curve_pct = 1)
    (hw : 0 < totalWidthCm images config)
    (hok : calculate_transforms images config = .ok res) :
    ∀ p ∈ res, p.2.translate.x ^ 2 + p.2.translate.z ^ 2 =
      (0.5 * totalWidthCm images config) ^ 2 := by
  intro p hp
  rcases calculate_transforms_result_cases images config res hok with rfl | rfl
  · simp at hp
  · obtain ⟨l, t, g, hpt⟩ :=
      snd_mem_layoutLoop images config images _ _ _ p (mem_pyDict _ _ hp)
    rw [hpt, imageTransform_def]
    simp only [hcurve, one_mul, sub_self, mul_zero, zero_mul, zero_add, mul_one]
    linear_combination (0.5 * totalWidthCm images config) ^ 2 *
      Real.sin_sq_add_cos_sq ((1 - rowT images config l) * (0.5 * tau) + 0.25 * tau)

/-- Witness for C6 at a concrete input. -/
theorem claim_C6_witness :
    (⟨300, 0, 1, 2⟩ : Config).curve_pct = 1 ∧
    0 < totalWidthCm [⟨300, 300, "a"⟩, ⟨300, 300, "b"⟩] ⟨300, 0, 1, 2⟩ ∧
    calculate_transforms [⟨300, 300, "a"⟩, ⟨300, 300, "b"⟩] ⟨300, 0, 1, 2⟩ =
      .ok (pyDict (layoutPairs [⟨300, 300, "a"⟩, ⟨300, 300, "b"⟩] ⟨300, 0, 1, 2⟩)) ∧
    ∀ p ∈ pyDict (layoutPairs [⟨300, 300, "a"⟩, ⟨300, 300, "b"⟩] ⟨300, 0, 1, 2⟩),
      p.2.translate.x ^ 2 + p.2.translate.z ^ 2 =
        (0.5 * totalWidthCm [⟨300, 300, "a"⟩, ⟨300, 300, "b"⟩] ⟨300, 0, 1, 2⟩) ^ 2 :=
  ⟨rfl,
    by norm_num [totalWidthCm, maxImageWidthCm, maxImageWidthPx, imageGapCm,
      imagesPerRow, INCHES_TO_CM],
    calculate_transforms_ok _ _ (by simp) (by norm_num),
    claim_C6_circle _ _ _ rfl
      (by norm_num [totalWidthCm, maxImageWidthCm, maxImageWidthPx, imageGapCm,
        imagesPerRow, INCHES_TO_CM])
      (calculate_transforms_ok _ _ (by simp) (by norm_num))⟩

/-- C8: when the image identities are pairwise distinct, the mapping
returned by `computeLayout` has exactly one entry per input image, keyed by
that image's identity and in input order, for any non-negative image
count. -/
theorem claim_C8_completeness (images : List PILImage) (config : Config)
    (res : List (String × Transform))
    (hnd : (images.map PILImage.filename).Nodup)
    (hok : calculate_transforms images config = .ok res) :
    res.map Prod.fst = images.map PILImage.filename := by
  rw [calculate_transforms_res_eq images config res hnd hok, layoutPairs_map_fst]

/-- Witness for C8 at a concrete input. -/
theorem claim_C8_witness :
    (([⟨300, 300, "a"⟩, ⟨300, 300, "b"⟩] : List PILImage).map
      PILImage.filename).Nodup ∧
    calculate_transforms [⟨300, 300, "a"⟩, ⟨300, 300, "b"⟩] ⟨300, 0.1, 0, 2⟩ =
      .ok (layoutPairs [⟨300, 300, "a"⟩, ⟨300, 300, "b"⟩] ⟨300, 0.1, 0, 2⟩) ∧
    (layoutPairs [⟨300, 300, "a"⟩, ⟨300, 300, "b"⟩] ⟨300, 0.1, 0, 2⟩).map
        Prod.fst =
      ([⟨300, 300, "a"⟩, ⟨300, 300, "b"⟩] : List PILImage).map PILImage.filename :=
  ⟨by simp,
    calculate_transforms_ok_nodup _ _ (by simp) (by norm_num) (by simp),
    claim_C8_completeness _ _ _ (by simp)
      (calculate_transforms_ok_nodup _ _ (by simp) (by norm_num) (by simp))⟩

/-- C1 fails on the code: `core.py` line 69 defines `INCHES_TO_CM = 1.54`,
so a 300×300 px image at 300 ppi is scaled to 1.54 cm, not the
`(pixels / ppi) * 2.54 = 2.54` cm the claim (and the physical constant
1 inch = 2.54 cm) requires. -/
theorem claim_C1_counterexample :
    INCHES_TO_CM = 1.54 ∧
    maxImageWidthCm [⟨300, 300, "a"⟩] ⟨300, 0.1, 0, 1⟩ = 1.54 ∧
    (layoutPairs [⟨300, 300, "a"⟩] ⟨300, 0.1, 0, 1⟩).map (fun p => p.2.scale.x) =
      [1.54] ∧
    ((300 : ℝ) / 300) * 2.54 = 2.54 ∧
    (1.54 : ℝ) ≠ 2.54 := by
  refine ⟨rfl, ?_, ?_, by norm_num, by norm_num⟩
  · norm_num [maxImageWidthCm, maxImageWidthPx, INCHES_TO_CM]
  · norm_num [layoutPairs, layoutLoop, imageTransform, imagesPerRow, leftMostCm,
      topMostCm, totalWidthCm, totalHeightCm, totalRows, imageGapCm, maxImageWidthCm,
      maxImageWidthPx, maxImageHeightCm, maxImageHeightPx, INCHES_TO_CM, rowT]

/-- C4 fails on the code: `calculate_transforms` never validates
`config.ppi`. With `ppi = -300` and one 300×300 image it returns normally
(no error of any kind) and silently produces a corrupted transform with
negative scale `-1.54`; with `ppi = 0` it hits a bare `ZeroDivisionError`
at `max_image_width_px / config.ppi`, not an InvalidParameter error. -/
theorem claim_C4_counterexample :
    calculate_transforms [⟨300, 300, "a"⟩] ⟨-300, 0, 0, 1⟩ =
      .ok (layoutPairs [⟨300, 300, "a"⟩] ⟨-300, 0, 0, 1⟩) ∧
    (layoutPairs [⟨300, 300, "a"⟩] ⟨-300, 0, 0, 1⟩).map (fun p => p.2.scale.x) =
      [-1.54] ∧
    ((-1.54 : ℝ) < 0) ∧
    calculate_transforms [⟨300, 300, "a"⟩] ⟨0, 0, 0, 1⟩ =
      .error .zeroDivisionError := by
  refine ⟨calculate_transforms_ok_nodup _ _ (by simp) (by norm_num) (by simp),
    ?_, by norm_num, ?_⟩
  · norm_num [layoutPairs, layoutLoop, imageTransform, imagesPerRow, leftMostCm,
      topMostCm, totalWidthCm, totalHeightCm, totalRows, imageGapCm, maxImageWidthCm,
      maxImageWidthPx, maxImageHeightCm, maxImageHeightPx, INCHES_TO_CM, rowT]
  · unfold calculate_transforms
    norm_num

/-- C2 fails on the code: in the spec's concrete scenario (3 images of
300×300 px, `ppi = 300`, `gapFraction = 0.1`, `curveFraction = 0`,
`imagesPerRow = 3`) the code's `INCHES_TO_CM = 1.54` makes each image
1.54 cm wide, the gap 0.154 cm, and the translations
x = -1.694, 0, +1.694 with scale (1.54, 1.54, 1) — not the claimed
x ≈ -2.794, 0, +2.794 and scale (2.54, 2.54, 1). The claimed y, z and
rotation values do hold. -/
theorem claim_C2_counterexample :
    calculate_transforms [⟨300, 300, "a"⟩, ⟨300, 300, "b"⟩, ⟨300, 300, "c"⟩]
        ⟨300, 0.1, 0, 3⟩ =
      .ok (layoutPairs [⟨300, 300, "a"⟩, ⟨300, 300, "b"⟩, ⟨300, 300, "c"⟩]
        ⟨300, 0.1, 0, 3⟩) ∧
    (layoutPairs [⟨300, 300, "a"⟩, ⟨300, 300, "b"⟩, ⟨300, 300, "c"⟩]
        ⟨300, 0.1, 0, 3⟩).map (fun p => p.2.translate) =
      [⟨-1.694, 0, 0⟩, ⟨0, 0, 0⟩, ⟨1.694, 0, 0⟩] ∧
    (layoutPairs [⟨300, 300, "a"⟩, ⟨300, 300, "b"⟩, ⟨300, 300, "c"⟩]
        ⟨300, 0.1, 0, 3⟩).map (fun p => p.2.rotate) =
      [⟨0, 0, 0⟩, ⟨0, 0, 0⟩, ⟨0, 0, 0⟩] ∧
    (layoutPairs [⟨300, 300, "a"⟩, ⟨300, 300, "b"⟩, ⟨300, 300, "c"⟩]
        ⟨300, 0.1, 0, 3⟩).map (fun p => p.2.scale) =
      [⟨1.54, 1.54, 1⟩, ⟨1.54, 1.54, 1⟩, ⟨1.54, 1.54, 1⟩] ∧
    ((-1.694 : ℝ) ≠ -2.794) ∧ ((1.54 : ℝ) ≠ 2.54) := by
  refine ⟨calculate_transforms_ok_nodup _ _ (by simp) (by norm_num) (by simp),
    ?_, ?_, ?_, by norm_num, by norm_num⟩ <;>
    norm_num [layoutPairs, layoutLoop, imageTransform, imagesPerRow, leftMostCm,
      topMostCm, totalWidthCm, totalHeightCm, totalRows, imageGapCm, maxImageWidthCm,
      maxImageWidthPx, maxImageHeightCm, maxImageHeightPx, INCHES_TO_CM, rowT,
      Vec3.mk.injEq]

theorem amendedYaw_eq (c phase : ℝ) :
    -c * degreesOf (-phase + 0.5 * tau) = amendedYaw c phase := by
  rw [amendedYaw, tau, degreesOf, degreesOf]
  ring

/-- C3 (amended): for every image placed by `computeLayout`, the rotation
is `(0, yaw, 0)` with `yaw = -curveFraction * toDegrees(halfCircle - phase)`
where `halfCircle = 0.5 * fullCircle = π` and
`phase = (1 - t) * π + 0.25 * fullCircle` — i.e. the claim's formula with
`fullCircle - phase` replaced by `0.5 * fullCircle - phase`, which is what
`core.py` line 130 (`math.degrees(-phase + 0.5 * math.tau)`) computes. -/
theorem claim_C3_amended_yaw (images : List PILImage) (config : Config)
    (res : List (String × Transform))
    (hnd : (images.map PILImage.filename).Nodup)
    (hok : calculate_transforms images config = .ok res) :
    ∀ (k : ℕ) (g : PILImage), images[k]? = some g →
      ∃ p, res[k]? = some p ∧
        p.2.rotate =
          ⟨0, amendedYaw config.curve_pct (phaseAt images config k), 0⟩ := by
  intro k g hkg
  have hres := calculate_transforms_res_eq images config res hnd hok
  subst hres
  have hne : images ≠ [] := by
    intro h
    subst h
    simp at hkg
  refine ⟨(g.filename, imageTransform images config (leftAt images config k)
      (topAt images config k) g), ?_, ?_⟩
  · rw [layoutPairs_getElem images config hne k, hkg, Option.map_some']
  · rw [imageTransform_def]
    show Vec3.mk 0 (-config.curve_pct *
        degreesOf (-((1 - rowT images config (leftAt images config k)) * (0.5 * tau) +
          0.25 * tau) + 0.5 * tau)) 0 = _
    rw [show ((1 - rowT images config (leftAt images config k)) * (0.5 * tau) +
        0.25 * tau) = phaseAt images config k from (phaseAt.eq_1 images config k).symm,
      amendedYaw_eq]

/-- C3 counterexample: with 2 images of 300×300 px, `ppi = 300`,
`gapFraction = 0`, `curveFraction = 1`, `imagesPerRow = 2`, the first
placed image has yaw `+90`, while the claimed formula
`-curveFraction * toDegrees(fullCircle - phase)` evaluates to `-90` at
that image's phase (`3π/2`). -/
theorem claim_C3_counterexample :
    (layoutPairs [⟨300, 300, "a"⟩, ⟨300, 300, "b"⟩] ⟨300, 0, 1, 2⟩).map
        (fun p => p.2.rotate.y) = [90, -90] ∧
    specYaw (⟨300, 0, 1, 2⟩ : Config).curve_pct
        (phaseAt [⟨300, 300, "a"⟩, ⟨300, 300, "b"⟩] ⟨300, 0, 1, 2⟩ 0) = -90 ∧
    ((90 : ℝ) ≠ -90) ∧
    calculate_transforms [⟨300, 300, "a"⟩, ⟨300, 300, "b"⟩] ⟨300, 0, 1, 2⟩ =
      .ok (layoutPairs [⟨300, 300, "a"⟩, ⟨300, 300, "b"⟩] ⟨300, 0, 1, 2⟩) := by
  refine ⟨?_, ?_, by norm_num,
    calculate_transforms_ok_nodup _ _ (by simp) (by norm_num) (by simp)⟩
  · norm_num [layoutPairs, layoutLoop, imageTransform, imagesPerRow, leftMostCm,
      topMostCm, totalWidthCm, totalHeightCm, totalRows, imageGapCm, maxImageWidthCm,
      maxImageWidthPx, maxImageHeightCm, maxImageHeightPx, INCHES_TO_CM, rowT,
      degreesOf, tau]
    constructor
    · field_simp
      ring
    · field_simp
      ring
  · norm_num [specYaw, phaseAt, rowT, leftAt, imagesPerRowN, imagesPerRow, leftMostCm,
      totalWidthCm, imageGapCm, maxImageWidthCm, maxImageWidthPx, INCHES_TO_CM,
      degreesOf, tau]
    field_simp
    ring

/-- Witness for the amended C3 at a concrete input. -/
theorem claim_C3_witness :
    (([⟨300, 300, "a"⟩] : List PILImage).map PILImage.filename).Nodup ∧
    calculate_transforms [⟨300, 300, "a"⟩] ⟨300, 0, 0, 1⟩ =
      .ok (layoutPairs [⟨300, 300, "a"⟩] ⟨300, 0, 0, 1⟩) ∧
    ([⟨300, 300, "a"⟩] : List PILImage)[0]? = some ⟨300, 300, "a"⟩ ∧
    ∃ p, (layoutPairs [⟨300, 300, "a"⟩] ⟨300, 0, 0, 1⟩)[0]? = some p ∧
      p.2.rotate = ⟨0, amendedYaw (⟨300, 0, 0, 1⟩ : Config).curve_pct
        (phaseAt [⟨300, 300, "a"⟩] ⟨300, 0, 0, 1⟩ 0), 0⟩ :=
  ⟨by simp, calculate_transforms_ok_nodup _ _ (by simp) (by norm_num) (by simp),
    rfl,
    claim_C3_amended_yaw _ _ _ (by simp)
      (calculate_transforms_ok_nodup _ _ (by simp) (by norm_num) (by simp)) 0 _ rfl⟩

/-- C7: with `imagesPerRow = k ≥ 1` and `imageCount > k`, the images at
input-order indices `0..k-1` all receive the same `y` translation (the
topmost row level `topMostCm`), and the image at index `k` receives a `y`
translation exactly `maxImageHeightCm + imageGapCm` lower. -/
theorem claim_C7_row_wrapping (images : List PILImage) (config : Config)
    (res : List (String × Transform))
    (hnd : (images.map PILImage.filename).Nodup)
    (hok : calculate_transforms images config = .ok res)
    (hk : 1 ≤ config.images_per_row)
    (hn : config.images_per_row < (images.length : ℤ)) :
    (∀ i : ℕ, (i : ℤ) < config.images_per_row →
      ∃ p, res[i]? = some p ∧ p.2.translate.y = topMostCm images config) ∧
    (∃ p, res[(config.images_per_row).toNat]? = some p ∧
      p.2.translate.y = topMostCm images config -
        (maxImageHeightCm images config + imageGapCm images config)) := by
  have hne : images ≠ [] := by
    intro h
    subst h
    simp at hn
    omega
  have hres := calculate_transforms_res_eq images config res hnd hok
  subst hres
  have hipr_eq : imagesPerRow images config = config.images_per_row := by
    unfold imagesPerRow
    rw [if_neg (by omega)]
  have hN : imagesPerRowN images config = (config.images_per_row).toNat := by
    unfold imagesPerRowN
    rw [hipr_eq]
  constructor
  · intro i hi
    have hilen : i < images.length := by omega
    refine ⟨_, by rw [layoutPairs_getElem images config hne i,
      List.getElem?_eq_getElem hilen, Option.map_some'], ?_⟩
    rw [imageTransform_def]
    show topAt images config i = topMostCm images config
    rw [topAt, hN, Nat.div_eq_of_lt (by omega)]
    push_cast
    ring
  · have hklen : (config.images_per_row).toNat < images.length := by omega
    refine ⟨_, by rw [layoutPairs_getElem images config hne _,
      List.getElem?_eq_getElem hklen, Option.map_some'], ?_⟩
    rw [imageTransform_def]
    show topAt images config (config.images_per_row).toNat =
      topMostCm images config -
        (maxImageHeightCm images config + imageGapCm images config)
    rw [topAt, hN, Nat.div_self (by omega)]
    push_cast
    ring

/-- Witness for C7 at a concrete input. -/
theorem claim_C7_witness :
    (([⟨300, 300, "a"⟩, ⟨300, 300, "b"⟩] : List PILImage).map
      PILImage.filename).Nodup ∧
    calculate_transforms [⟨300, 300, "a"⟩, ⟨300, 300, "b"⟩] ⟨300, 0.1, 0, 1⟩ =
      .ok (layoutPairs [⟨300, 300, "a"⟩, ⟨300, 300, "b"⟩] ⟨300, 0.1, 0, 1⟩) ∧
    (1 : ℤ) ≤ (⟨300, 0.1, 0, 1⟩ : Config).images_per_row ∧
    (⟨300, 0.1, 0, 1⟩ : Config).images_per_row <
      (([⟨300, 300, "a"⟩, ⟨300, 300, "b"⟩] : List PILImage).length : ℤ) ∧
    ((∀ i : ℕ, (i : ℤ) < (⟨300, 0.1, 0, 1⟩ : Config).images_per_row →
      ∃ p, (layoutPairs [⟨300, 300, "a"⟩, ⟨300, 300, "b"⟩] ⟨300, 0.1, 0, 1⟩)[i]? =
          some p ∧
        p.2.translate.y =
          topMostCm [⟨300, 300, "a"⟩, ⟨300, 300, "b"⟩] ⟨300, 0.1, 0, 1⟩) ∧
    (∃ p, (layoutPairs [⟨300, 300, "a"⟩, ⟨300, 300, "b"⟩]
          ⟨300, 0.1, 0, 1⟩)[((⟨300, 0.1, 0, 1⟩ : Config).images_per_row).toNat]? =
        some p ∧
      p.2.translate.y =
        topMostCm [⟨300, 300, "a"⟩, ⟨300, 300, "b"⟩] ⟨300, 0.1, 0, 1⟩ -
          (maxImageHeightCm [⟨300, 300, "a"⟩, ⟨300, 300, "b"⟩] ⟨300, 0.1, 0, 1⟩ +
            imageGapCm [⟨300, 300, "a"⟩, ⟨300, 300, "b"⟩] ⟨300, 0.1, 0, 1⟩))) :=
  ⟨by simp, calculate_transforms_ok_nodup _ _ (by simp) (by norm_num) (by simp),
    by norm_num, by norm_num,
    claim_C7_row_wrapping _ _ _ (by simp)
      (calculate_transforms_ok_nodup _ _ (by simp) (by norm_num) (by simp))
      (by norm_num) (by norm_num)⟩

/-- C10: for every non-empty input with `pixelsPerInch > 0` and
non-negative `gapFraction`, the per-image row-position parameter `t` is
computed with the guarded division (`t = 0` whenever `totalWidthCm` is not
positive, so no division by zero occurs), and `t` always lies in `[0, 1]`. -/
theorem claim_C10_t_bounds (images : List PILImage) (config : Config)
    (hppi : 0 < config.ppi) (hgap : 0 ≤ config.gap_pct) (hne : images ≠ []) :
    ∀ (k : ℕ) (g : PILImage), images[k]? = some g →
      ∃ p, (layoutPairs images config)[k]? = some p ∧
        p = (g.filename, imageTransform images config (leftAt images config k)
          (topAt images config k) g) ∧
        0 ≤ rowT images config (leftAt images config k) ∧
        rowT images config (leftAt images config k) ≤ 1 ∧
        (¬ 0 < totalWidthCm images config →
          rowT images config (leftAt images config k) = 0) := by
  intro k g hkg
  have hipr : 1 ≤ imagesPerRow images config := one_le_imagesPerRow images config hne
  have hN0 : 0 < imagesPerRowN images config := imagesPerRowN_pos images config hipr
  have hNZ : ((imagesPerRowN images config : ℕ) : ℤ) = imagesPerRow images config :=
    imagesPerRowN_cast images config hipr
  have hppiR : (0 : ℝ) < (config.ppi : ℝ) := by exact_mod_cast hppi
  have hmw : 0 ≤ maxImageWidthCm images config := by
    rw [maxImageWidthCm, INCHES_TO_CM]
    apply mul_nonneg (div_nonneg (by positivity) (le_of_lt hppiR)) (by norm_num)
  have hgapcm : 0 ≤ imageGapCm images config := by
    rw [imageGapCm]
    exact mul_nonneg hgap hmw
  have hstep : 0 ≤ maxImageWidthCm images config + imageGapCm images config := by
    linarith
  refine ⟨(g.filename, imageTransform images config (leftAt images config k)
      (topAt images config k) g),
    by rw [layoutPairs_getElem images config hne k, hkg, Option.map_some'], rfl,
    ?_, ?_, ?_⟩
  · rw [rowT]
    split
    · apply div_nonneg _ (by linarith)
      rw [leftAt]
      have : (0 : ℝ) ≤ ((k % imagesPerRowN images config : ℕ) : ℝ) *
          (maxImageWidthCm images config + imageGapCm images config) :=
        mul_nonneg (by positivity) hstep
      linarith
    · norm_num
  · rw [rowT]
    split
    · rename_i htw
      rw [div_le_one htw]
      have hc : (0 : ℝ) ≤ ((imagesPerRow images config - 1 : ℤ) : ℝ) := by
        exact_mod_cast (show (0 : ℤ) ≤ imagesPerRow images config - 1 by omega)
      have htot : totalWidthCm images config =
          ((imagesPerRow images config - 1 : ℤ) : ℝ) *
            (maxImageWidthCm images config + imageGapCm images config) := by
        rw [totalWidthCm,
          max_eq_left (show (0 : ℤ) ≤ imagesPerRow images config - 1 by omega),
          max_eq_left (add_nonneg (mul_nonneg hmw hc) (mul_nonneg hgapcm hc))]
        ring
      have hmod : k % imagesPerRowN images config < imagesPerRowN images config :=
        Nat.mod_lt _ hN0
      have hkZ : ((k % imagesPerRowN images config : ℕ) : ℤ) ≤
          imagesPerRow images config - 1 := by omega
      have hkN : ((k % imagesPerRowN images config : ℕ) : ℝ) ≤
          ((imagesPerRow images config - 1 : ℤ) : ℝ) := by
        have h2 := (Int.cast_le (R := ℝ)).mpr hkZ
        rwa [Int.cast_natCast] at h2
      rw [leftAt, htot]
      nlinarith [mul_le_mul_of_nonneg_right hkN hstep]
    · norm_num
  · intro htw
    rw [rowT, if_neg htw]

/-- Witness for C10 at a concrete input. -/
theorem claim_C10_witness :
    (0 : ℤ) < (⟨300, 0.1, 0, 1⟩ : Config).ppi ∧
    (0 : ℝ) ≤ (⟨300, 0.1, 0, 1⟩ : Config).gap_pct ∧
    ([⟨300, 300, "a"⟩, ⟨300, 300, "b"⟩] : List PILImage) ≠ [] ∧
    ([⟨300, 300, "a"⟩, ⟨300, 300, "b"⟩] : List PILImage)[0]? =
      some ⟨300, 300, "a"⟩ ∧
    ∃ p, (layoutPairs [⟨300, 300, "a"⟩, ⟨300, 300, "b"⟩] ⟨300, 0.1, 0, 1⟩)[0]? =
        some p ∧
      p = ((⟨300, 300, "a"⟩ : PILImage).filename,
        imageTransform [⟨300, 300, "a"⟩, ⟨300, 300, "b"⟩] ⟨300, 0.1, 0, 1⟩
          (leftAt [⟨300, 300, "a"⟩, ⟨300, 300, "b"⟩] ⟨300, 0.1, 0, 1⟩ 0)
          (topAt [⟨300, 300, "a"⟩, ⟨300, 300, "b"⟩] ⟨300, 0.1, 0, 1⟩ 0)
          ⟨300, 300, "a"⟩) ∧
      0 ≤ rowT [⟨300, 300, "a"⟩, ⟨300, 300, "b"⟩] ⟨300, 0.1, 0, 1⟩
        (leftAt [⟨300, 300, "a"⟩, ⟨300, 300, "b"⟩] ⟨300, 0.1, 0, 1⟩ 0) ∧
      rowT [⟨300, 300, "a"⟩, ⟨300, 300, "b"⟩] ⟨300, 0.1, 0, 1⟩
        (leftAt [⟨300, 300, "a"⟩, ⟨300, 300, "b"⟩] ⟨300, 0.1, 0, 1⟩ 0) ≤ 1 ∧
      (¬ 0 < totalWidthCm [⟨300, 300, "a"⟩, ⟨300, 300, "b"⟩] ⟨300, 0.1, 0, 1⟩ →
        rowT [⟨300, 300, "a"⟩, ⟨300, 300, "b"⟩] ⟨300, 0.1, 0, 1⟩
          (leftAt [⟨300, 300, "a"⟩, ⟨300, 300, "b"⟩] ⟨300, 0.1, 0, 1⟩ 0) = 0) :=
  ⟨by norm_num, by norm_num, by simp, rfl,
    claim_C10_t_bounds _ _ (by norm_num) (by norm_num) (by simp) 0 _ rfl⟩
